import Mathlib

/-!
# Verification of the attendance-system profile service (`app.py`)

Shallow embedding of the single-module Flask service: the pure filename
derivation (`sanitize_stream`, `session_filename_piece`, `make_filename`)
and the `save_profile` request handler with its append-only CSV record
store.  Strings are modelled as Lean `String`s manipulated through their
character lists; Python-specific primitives (`str.split`, `str.isdigit`,
`int(...)`, truthiness of JSON values, `csv.writer` minimal quoting,
`datetime.isoformat`) are embedded explicitly.
-/

namespace Attendance

/-! ## Python string primitives -/

/-- Python `s.split(sep)` for a single-character separator: always returns at
least one (possibly empty) part; `"".split(sep) == [""]`. -/
def pySplitChar (sep : Char) : List Char → List (List Char)
  | [] => [[]]
  | c :: cs =>
    let r := pySplitChar sep cs
    if c = sep then [] :: r
    else
      match r with
      | [] => [[c]]
      | g :: gs => (c :: g) :: gs

/-- Python `s.isdigit()` restricted to ASCII text: nonempty and all digits. -/
def pyIsDigit (cs : List Char) : Bool :=
  !cs.isEmpty && cs.all Char.isDigit

/-- Python `s[-n:]`: the last `n` characters (the whole list when shorter). -/
def takeLast (n : Nat) (l : List α) : List α :=
  l.drop (l.length - n)

/-- Characters Python `int()` strips around a numeral literal. -/
def isPyWS (c : Char) : Bool :=
  c = ' ' || c = '\t' || c = '\n' || c = '\r' || c = '\x0b' || c = '\x0c'

/-- Numeric value of a digit list (most significant first). -/
def digitsVal : List Char → Nat
  | [] => 0
  | c :: cs => (c.toNat - 48) * 10 ^ cs.length + digitsVal cs

/-- Python `int(s)` on a string: strip whitespace, optional sign, then a
nonempty run of ASCII digits; `none` models a raised `ValueError`.
(Underscore digit grouping accepted by CPython is not modelled; no input
relevant to the handler's session check uses it.) -/
def pyIntParse (s : String) : Option Int :=
  let t := ((s.data.dropWhile isPyWS).reverse.dropWhile isPyWS).reverse
  match t with
  | '+' :: ds => if pyIsDigit ds then some (digitsVal ds : Int) else none
  | '-' :: ds => if pyIsDigit ds then some (-(digitsVal ds : Int)) else none
  | ds => if pyIsDigit ds then some (digitsVal ds : Int) else none

/-! ## Filename derivation (`app.py` lines 17–45) -/

/-- Character class kept by `re.sub(r'[^A-Za-z0-9_]', '', ·)`. -/
def streamKeep (c : Char) : Bool :=
  c.isAlpha || c.isDigit || c = '_'

/-- `sanitize_stream`: replace spaces by underscores, drop every character
outside `[A-Za-z0-9_]`, then uppercase; empty result becomes `"OTHER"`. -/
def sanitize_stream (stream : String) : String :=
  let s := (stream.data.map (fun c => if c = ' ' then '_' else c)).filter streamKeep
  if s.isEmpty then "OTHER" else String.mk (s.map Char.toUpper)

/-- The `ORDINAL` table with its `f"{year}th"` default (`ORDINAL.get`). -/
def ordinalOf (year : String) : String :=
  if year = "1" then "1st"
  else if year = "2" then "2nd"
  else if year = "3" then "3rd"
  else if year = "4" then "4th"
  else year ++ "th"

/-- Character class kept by the fallback `re.sub(r'[^0-9\-]', '', ·)`. -/
def sessKeep (c : Char) : Bool :=
  c.isDigit || c = '-'

/-- `session_filename_piece`: two purely numeric hyphen-separated parts give
`start ++ "-" ++ (last two chars of end)`; otherwise keep only digits and
hyphens of the original text. -/
def session_filename_piece (session : String) : String :=
  match pySplitChar '-' session.data with
  | [p0, p1] =>
    if pyIsDigit p0 && pyIsDigit p1 then
      String.mk (p0 ++ '-' :: takeLast 2 p1)
    else
      String.mk (session.data.filter sessKeep)
  | _ => String.mk (session.data.filter sessKeep)

/-- Character class kept by the final safety pass
`re.sub(r'[^A-Za-z0-9_\-\.]', '', ·)`. -/
def fileSafe (c : Char) : Bool :=
  c.isAlpha || c.isDigit || c = '_' || c = '-' || c = '.'

/-- `make_filename`: assemble `f"{s}_{ordinal}_{sess_piece}.csv"` and strip
every character outside `[A-Za-z0-9_\-.]`. -/
def make_filename (stream year session : String) : String :=
  let s := sanitize_stream stream
  let ordinal := ordinalOf year
  let sess := session_filename_piece session
  let assembled :=
    s.data ++ '_' :: ordinal.data ++ '_' :: sess.data ++ ['.', 'c', 's', 'v']
  String.mk (assembled.filter fileSafe)

/-! ## JSON payloads and truthiness -/

/-- JSON values a request body can hold (floats are not needed by any
handler path the claims touch; integers stand in for JSON numbers). -/
inductive JsonVal where
  | str (s : String)
  | num (n : Int)
  | bool (b : Bool)
  | null
deriving DecidableEq

/-- Python truthiness of a JSON-decoded value, as used by `not data.get(k)`. -/
def JsonVal.truthy : JsonVal → Bool
  | .str s => !s.isEmpty
  | .num n => decide (n ≠ 0)
  | .bool b => b
  | .null => false

/-- Python `str(·)` of a JSON-decoded value. -/
def JsonVal.pyStr : JsonVal → String
  | .str s => s
  | .num n => toString n
  | .bool b => if b then "True" else "False"
  | .null => "None"

/-- The text `csv.writer` emits for a cell value (`None` becomes empty,
other non-strings go through `str`). -/
def JsonVal.csvStr : JsonVal → String
  | .null => ""
  | v => v.pyStr

/-- A decoded JSON object body: a finite map, keys unique. -/
def Payload := List (String × JsonVal)

/-- `data.get(k)`: `none` when the key is absent. -/
def Payload.get (d : Payload) (k : String) : Option JsonVal :=
  (d.find? (fun p => p.1 = k)).map (·.2)

/-- Truthiness of `data.get(k)` (absent keys are falsy, like `None`). -/
def truthyOpt : Option JsonVal → Bool
  | none => false
  | some v => v.truthy

/-! ## Timestamps (`datetime.utcnow().isoformat()`) -/

/-- A timezone-naive UTC timestamp as `datetime` carries it. -/
structure DateTime where
  year : Nat
  month : Nat
  day : Nat
  hour : Nat
  minute : Nat
  second : Nat
  microsecond : Nat
deriving DecidableEq

/-- Decimal digit characters of `n`, most significant first. -/
def natDigits (n : Nat) : List Char :=
  if h : n < 10 then [Char.ofNat (48 + n)]
  else natDigits (n / 10) ++ [Char.ofNat (48 + n % 10)]
decreasing_by
  exact Nat.div_lt_self (by omega) (by omega)

/-- `n` zero-padded on the left to width `w` (as `%0wd` does for `n < 10^w`). -/
def padNum (w n : Nat) : List Char :=
  List.replicate (w - (natDigits n).length) '0' ++ natDigits n

/-- Characters of `datetime.isoformat()`: `YYYY-MM-DDTHH:MM:SS[.ffffff]`,
the fractional part omitted exactly when `microsecond == 0`. -/
def isoChars (t : DateTime) : List Char :=
  padNum 4 t.year ++ ('-' :: (padNum 2 t.month ++ ('-' :: (padNum 2 t.day ++
    ('T' :: (padNum 2 t.hour ++ (':' :: (padNum 2 t.minute ++ (':' :: (padNum 2 t.second ++
    (if t.microsecond = 0 then [] else '.' :: padNum 6 t.microsecond)))))))))))

/-- `datetime.isoformat()` as a string. -/
def isoformat (t : DateTime) : String :=
  String.mk (isoChars t)

/-- Consume exactly `n` ASCII digits, returning the remaining characters. -/
def digitsN : Nat → List Char → Option (List Char)
  | 0, cs => some cs
  | _ + 1, [] => none
  | n + 1, c :: cs => if c.isDigit then digitsN n cs else none

/-- Consume one expected character. -/
def expectChar (c : Char) : List Char → Option (List Char)
  | [] => none
  | c2 :: cs => if c2 = c then some cs else none

/-- The fixed `YYYY-MM-DDTHH:MM:SS` portion of an ISO-8601 timestamp. -/
def isoShape (cs : List Char) : Option (List Char) :=
  (((((((((digitsN 4 cs).bind (expectChar '-')).bind (digitsN 2)).bind
    (expectChar '-')).bind (digitsN 2)).bind (expectChar 'T')).bind
    (digitsN 2)).bind (expectChar ':')).bind (digitsN 2)).bind
    (expectChar ':') |>.bind (digitsN 2)

/-- Accept the optional `.ffffff` microsecond suffix. -/
def isoAfterSeconds : List Char → Bool
  | [] => true
  | '.' :: cs => decide (cs.length = 6) && cs.all Char.isDigit
  | _ => false

/-- Decides whether `s` parses as a timezone-naive ISO-8601 timestamp of the
exact shape `datetime.isoformat` produces. -/
def isIsoTimestamp (s : String) : Bool :=
  match isoShape s.data with
  | none => false
  | some rest => isoAfterSeconds rest

/-! ## CSV minimal quoting (`csv.writer` / `csv.reader`, default dialect) -/

/-- Characters forcing a cell to be quoted under `QUOTE_MINIMAL`. -/
def csvSpecial (c : Char) : Bool :=
  c = ',' || c = '"' || c = '\r' || c = '\n'

/-- Double every quote character, as inside a quoted CSV cell. -/
def escapeQuotes : List Char → List Char
  | [] => []
  | c :: cs => if c = '"' then '"' :: '"' :: escapeQuotes cs else c :: escapeQuotes cs

/-- Encode one cell: quote it exactly when it holds a special character. -/
def encodeCell (cell : List Char) : List Char :=
  if cell.any csvSpecial then '"' :: (escapeQuotes cell ++ ['"']) else cell

/-- Encode a row as one comma-separated record (without line terminator). -/
def encodeRowChars : List (List Char) → List Char
  | [] => []
  | [c] => encodeCell c
  | c :: cs => encodeCell c ++ ',' :: encodeRowChars cs

/-- The record text `csv.writer.writerow` emits for a row of strings
(line terminator aside). -/
def encodeRow (r : List String) : String :=
  String.mk (encodeRowChars (r.map String.data))

/-- Read a quoted cell body after its opening quote: a doubled quote is a
literal quote, a lone quote closes the cell; `none` models an unterminated
quoted cell. -/
def parseQuoted : List Char → Option (List Char × List Char)
  | [] => none
  | c :: cs =>
    if c = '"' then
      match cs with
      | [] => some ([], [])
      | c2 :: cs2 =>
        if c2 = '"' then
          match parseQuoted cs2 with
          | some (cell, rest) => some ('"' :: cell, rest)
          | none => none
        else some ([], cs)
    else
      match parseQuoted cs with
      | some (cell, rest) => some (c :: cell, rest)
      | none => none

/-- Read an unquoted cell: everything up to the next comma. -/
def parseUnquoted : List Char → List Char × List Char
  | [] => ([], [])
  | c :: cs =>
    if c = ',' then ([], c :: cs)
    else
      let p := parseUnquoted cs
      (c :: p.1, p.2)

/-- Read one cell, quoted or not. -/
def parseCell (cs : List Char) : Option (List Char × List Char) :=
  match cs with
  | [] => some ([], [])
  | c :: rest => if c = '"' then parseQuoted rest else some (parseUnquoted (c :: rest))

/-- Read the comma-separated cells of one record (fuel bounds recursion). -/
def parseRowAux : Nat → List Char → Option (List (List Char))
  | 0, _ => none
  | fuel + 1, cs =>
    match parseCell cs with
    | none => none
    | some (cell, rest) =>
      match rest with
      | [] => some [cell]
      | r :: rest2 =>
        if r = ',' then (parseRowAux fuel rest2).map (cell :: ·) else none

/-- Read back one CSV record into its cells. -/
def parseRow (s : String) : Option (List String) :=
  (parseRowAux (s.data.length + 1) s.data).map (List.map String.mk)

/-! ## The record store and the `save_profile` handler -/

/-- One stored CSV record, cell by cell. -/
abbrev Row := List String

/-- The records directory: per filename, `none` when the file does not exist,
otherwise the list of records (lines) it holds. -/
def Store := String → Option (List Row)

/-- The store with no files, as at process start. -/
def emptyStore : Store := fun _ => none

/-- The fixed header row (`headers` in `save_profile`). -/
def headerRow : Row :=
  ["timestamp", "name", "email", "roll", "birthdate", "registration",
   "stream", "session", "year", "course"]

/-- The nine required payload fields, in validation and column order. -/
def requiredFields : List String :=
  ["name", "email", "roll", "birthdate", "registration",
   "stream", "session", "year", "course"]

/-- `[k for k in required if not data.get(k)]`. -/
def missingFields (d : Payload) : List String :=
  requiredFields.filter (fun k => !truthyOpt (d.get k))

/-- The session pair `(int(parts[0]), int(parts[1]))` when the session text
splits on `-` into exactly two integer-parsing parts; `none` when the
`try` block's parse raises (the check is then skipped). -/
def sessionTwoIntParse (s : String) : Option (Int × Int) :=
  match pySplitChar '-' s.data with
  | [a, b] =>
    match pyIntParse (String.mk a), pyIntParse (String.mk b) with
    | some s0, some s1 => some (s0, s1)
    | _, _ => none
  | _ => none

/-- Does the best-effort session range check reject the session value?
Non-string values raise inside the `try` and are ignored. -/
def sessionCheckRejects : JsonVal → Bool
  | .str s =>
    match sessionTwoIntParse s with
    | some (s0, s1) => decide (s1 ≤ s0)
    | none => false
  | _ => false

/-- The data row `save_profile` appends: generated timestamp, then the nine
field values in column order. -/
def mkRow (now : DateTime) (d : Payload) : Row :=
  isoformat now :: requiredFields.map (fun k => ((d.get k).getD .null).csvStr)

/-- Handler outcome: HTTP 200 with the derived filename, HTTP 400 with a
message, or an unhandled exception (a non-string stream/session reaching a
string method — Flask would surface it as a 500 debug page). The 500
`StorageError` path is environmental (disk failure) and not modelled: the
embedded write always succeeds. -/
inductive HResp where
  | success (file : String)
  | validationError (message : String)
  | pyException
deriving DecidableEq

/-- The `POST /api/profile` handler: validate required fields, best-effort
session range check, derive the filename, then append the data row —
preceded by the header row when the file does not yet exist. -/
def save_profile (st : Store) (data : Payload) (now : DateTime) : HResp × Store :=
  let missing := missingFields data
  if missing.isEmpty = false then
    (.validationError ("Missing fields: " ++ String.intercalate ", " missing), st)
  else if sessionCheckRejects ((data.get "session").getD .null) then
    (.validationError "Session end year must be after start year.", st)
  else
    match data.get "stream", data.get "session" with
    | some (.str streamS), some (.str sessionS) =>
      let yearS := ((data.get "year").getD .null).pyStr
      let filename := make_filename streamS yearS sessionS
      let row := mkRow now data
      let newRows :=
        match st filename with
        | none => [headerRow, row]
        | some rows => rows ++ [row]
      (.success filename, fun f => if f = filename then some newRows else st f)
    | _, _ => (.pyException, st)

/-- Stores reachable from an empty records directory by any sequence of
handler calls (rejected calls leave the store unchanged). -/
inductive Reachable : Store → Prop
  | init : Reachable emptyStore
  | step (st : Store) (d : Payload) (ts : DateTime) :
      Reachable st → Reachable (save_profile st d ts).2

/-! ## Spec-side definitions (for refinement-style claims) -/

/-- The spec's kept class for stream sanitization: ASCII letter, digit, or
underscore. -/
def specStreamKeep (c : Char) : Bool :=
  c.isAlpha || c.isDigit || c = '_'

/-- Stream sanitization as the spec words it: replace spaces with
underscores, strip every character that is not an ASCII letter, digit, or
underscore, uppercase; an empty result becomes the literal `OTHER`. -/
def specStreamSanitize (stream : String) : String :=
  let replaced := stream.data.map (fun c => if c = ' ' then '_' else c)
  let stripped := replaced.filter specStreamKeep
  let uppered := stripped.map Char.toUpper
  if uppered.isEmpty then "OTHER" else String.mk uppered

/-! ## Sample request data used by the witnesses -/

/-- A fully valid request body. -/
def sampleData : Payload :=
  [("name", .str "Alice"), ("email", .str "alice@example.com"),
   ("roll", .str "17"), ("birthdate", .str "2001-01-02"),
   ("registration", .str "R1"), ("stream", .str "B.Tech CS"),
   ("session", .str "2023-2026"), ("year", .str "2"), ("course", .str "CS")]

/-- A sample generated timestamp. -/
def sampleTime : DateTime := ⟨2026, 10, 12, 3, 4, 5, 123456⟩

/-- The filename `sampleData` derives. -/
def sampleFile : String := "BTECH_CS_2nd_2023-26.csv"

/-- `sampleData` with the `email` key absent. -/
def missingEmailData : Payload := sampleData.filter (fun p => p.1 ≠ "email")

/-- `sampleData` with `email` holding the falsy number `0`. -/
def falsyEmailData : Payload := ("email", JsonVal.num 0) :: missingEmailData

/-- `sampleData` with an out-of-order session `"2025-2023"`. -/
def badSessionData : Payload :=
  ("session", JsonVal.str "2025-2023") :: sampleData.filter (fun p => p.1 ≠ "session")

/-- `sampleData` with the non-numeric session `"abc-def"`. -/
def oddSessionData : Payload :=
  ("session", JsonVal.str "abc-def") :: sampleData.filter (fun p => p.1 ≠ "session")

/-! ## Theorems: filename derivation (claims C1, C5, C6, C7, C10) -/

/-- C1: the spec's worked examples are wrong on the code.  `sanitize_stream`
keeps the underscore that replaced the space (the character class of the
strip step retains underscores), so the stream component of
`deriveFilename("Comp Sci!", …)` is not `"COMPSCI"` and the full assembly for
stream `"B.Tech CS"` is not `"BTECHCS_2nd_2023-26.csv"`. -/
theorem C1_examples_counterexample :
    sanitize_stream "Comp Sci!" ≠ "COMPSCI" ∧
    make_filename "B.Tech CS" "2" "2023-2026" ≠ "BTECHCS_2nd_2023-26.csv" := by
  decide

/-- C1 (amended): the worked examples with the surviving underscore: the
stream component of `deriveFilename("Comp Sci!", "1", "2023-2026")` is
`"COMP_SCI"`, and stream `"B.Tech CS"`, year `"2"`, session `"2023-2026"`
derive exactly `"BTECH_CS_2nd_2023-26.csv"`. -/
theorem C1_examples_amended :
    sanitize_stream "Comp Sci!" = "COMP_SCI" ∧
    make_filename "Comp Sci!" "1" "2023-2026" = "COMP_SCI_1st_2023-26.csv" ∧
    make_filename "B.Tech CS" "2" "2023-2026" = "BTECH_CS_2nd_2023-26.csv" := by
  decide

/-- C5: session compaction.  Two purely numeric hyphen-separated parts give
`first ++ "-" ++ last-two-of-second`; every other session text keeps only
its digits and hyphens; the spec's three examples hold. -/
theorem C5_session_compaction :
    (∀ s a b, pySplitChar '-' s.data = [a, b] →
      pyIsDigit a = true → pyIsDigit b = true →
      session_filename_piece s = String.mk (a ++ '-' :: takeLast 2 b)) ∧
    (∀ s, (¬ ∃ a b, pySplitChar '-' s.data = [a, b] ∧
        pyIsDigit a = true ∧ pyIsDigit b = true) →
      session_filename_piece s = String.mk (s.data.filter (fun c => c.isDigit || c = '-'))) ∧
    session_filename_piece "2023-2026" = "2023-26" ∧
    session_filename_piece "23-26" = "23-26" ∧
    session_filename_piece "bad" = "" := by
  refine ⟨?_, ?_, by decide, by decide, by decide⟩
  · intro s a b hsplit ha hb
    simp [session_filename_piece, hsplit, ha, hb]
  · intro s hno
    have hfil : String.mk (s.data.filter sessKeep) =
        String.mk (s.data.filter (fun c => c.isDigit || c = '-')) := rfl
    rcases hsplit : pySplitChar '-' s.data with _ | ⟨a, _ | ⟨b, _ | ⟨c, l⟩⟩⟩
    · simp only [session_filename_piece, hsplit]; exact hfil
    · simp only [session_filename_piece, hsplit]; exact hfil
    · rcases ha : pyIsDigit a with _ | _
      · simp only [session_filename_piece, hsplit, ha, Bool.false_and]
        exact hfil
      · rcases hb : pyIsDigit b with _ | _
        · simp only [session_filename_piece, hsplit, ha, hb, Bool.true_and]
          exact hfil
        · exact absurd ⟨a, b, hsplit, ha, hb⟩ hno
    · simp only [session_filename_piece, hsplit]; exact hfil

/-- C5 witness: both general clauses applied at concrete sessions. -/
theorem C5_session_compaction_witness :
    session_filename_piece "2023-2026" =
      String.mk (['2', '0', '2', '3'] ++ '-' :: takeLast 2 ['2', '0', '2', '6']) ∧
    session_filename_piece "bad" =
      String.mk ("bad".data.filter (fun c => c.isDigit || c = '-')) := by
  constructor
  · exact C5_session_compaction.1 "2023-2026" ['2', '0', '2', '3'] ['2', '0', '2', '6']
      (by decide) (by decide) (by decide)
  · refine C5_session_compaction.2.1 "bad" ?_
    rintro ⟨a, b, h, -, -⟩
    have e : pySplitChar '-' "bad".data = [['b', 'a', 'd']] := by decide
    rw [e] at h
    injection h with h1 h2
    injection h2

/-- C6: `make_filename` is total and safe: for every input triple the result
is nonempty and every character of it is an ASCII letter, digit, underscore,
hyphen, or period — in particular no path separator survives. -/
theorem C6_filename_safe (stream year session : String) :
    make_filename stream year session ≠ "" ∧
    (∀ c ∈ (make_filename stream year session).data, fileSafe c = true) ∧
    '/' ∉ (make_filename stream year session).data := by
  refine ⟨?_, ?_, ?_⟩
  · intro h
    have hdata : ((sanitize_stream stream).data ++ '_' :: (ordinalOf year).data ++
        '_' :: (session_filename_piece session).data ++
        ['.', 'c', 's', 'v']).filter fileSafe = [] := congrArg String.data h
    have hv : 'v' ∈ ((sanitize_stream stream).data ++ '_' :: (ordinalOf year).data ++
        '_' :: (session_filename_piece session).data ++ ['.', 'c', 's', 'v']) := by
      simp [List.mem_append]
    have : 'v' ∈ (((sanitize_stream stream).data ++ '_' :: (ordinalOf year).data ++
        '_' :: (session_filename_piece session).data ++
        ['.', 'c', 's', 'v']).filter fileSafe) :=
      List.mem_filter.mpr ⟨hv, by decide⟩
    rw [hdata] at this
    exact absurd this (List.not_mem_nil 'v')
  · intro c hc
    exact (List.mem_filter.mp hc).2
  · intro hc
    have : fileSafe '/' = true := (List.mem_filter.mp hc).2
    exact absurd this (by decide)

/-- C7: the stream component agrees with the spec's sanitization pipeline
(space → underscore, strip to `[A-Za-z0-9_]`, uppercase, empty → `OTHER`),
and all-punctuation streams fall back to `OTHER`. -/
theorem C7_stream_sanitization :
    (∀ s, sanitize_stream s = specStreamSanitize s) ∧
    sanitize_stream "!!!" = "OTHER" ∧
    make_filename "!!!" "2" "2023-2026" = "OTHER_2nd_2023-26.csv" := by
  refine ⟨?_, by decide, by decide⟩
  intro s
  have hk : streamKeep = specStreamKeep := rfl
  simp only [sanitize_stream, specStreamSanitize, hk]
  cases h : (s.data.map (fun c => if c = ' ' then '_' else c)).filter specStreamKeep with
  | nil => simp [h]
  | cons x xs => simp [h]

/-- C10: filename derivation is not injective on raw stream text: `"CS"` and
`"C.S."` differ yet derive the same filename. -/
theorem C10_not_injective :
    make_filename "CS" "1" "2023-2026" = make_filename "C.S." "1" "2023-2026" ∧
    "CS" ≠ "C.S." := by
  decide

/-! ## Handler shape lemmas -/

/-- The filename a payload derives when it reaches persistence. -/
def derivedFilename (d : Payload) : String :=
  match d.get "stream", d.get "session" with
  | some (.str streamS), some (.str sessionS) =>
    make_filename streamS ((d.get "year").getD .null).pyStr sessionS
  | _, _ => ""

/-- A handler call either rejects (store untouched) or succeeds, appending
`mkRow` to the derived file, creating it with the header first when absent. -/
theorem save_profile_shape (st : Store) (d : Payload) (ts : DateTime) :
    ((¬ ∃ f, (save_profile st d ts).1 = .success f) ∧ (save_profile st d ts).2 = st) ∨
    (∃ streamS sessionS,
      d.get "stream" = some (.str streamS) ∧ d.get "session" = some (.str sessionS) ∧
      (save_profile st d ts).1 = .success (derivedFilename d) ∧
      (save_profile st d ts).2 = fun g =>
        if g = derivedFilename d then
          some ((match st (derivedFilename d) with
                 | none => [headerRow]
                 | some rows => rows) ++ [mkRow ts d])
        else st g) := by
  cases hm : (missingFields d).isEmpty with
  | false =>
    left
    constructor
    · rintro ⟨f, hf⟩
      simp [save_profile, hm] at hf
    · simp [save_profile, hm]
  | true =>
    cases hr : sessionCheckRejects ((d.get "session").getD .null) with
    | true =>
      left
      constructor
      · rintro ⟨f, hf⟩
        simp [save_profile, hm, hr] at hf
      · simp [save_profile, hm, hr]
    | false =>
      rcases h1 : d.get "stream" with _ | v1
      · left
        constructor
        · rintro ⟨f, hf⟩
          simp [save_profile, hm, hr, h1] at hf
        · simp [save_profile, hm, hr, h1]
      · rcases h2 : d.get "session" with _ | v2
        · left
          constructor
          · rintro ⟨f, hf⟩
            simp [save_profile, sessionCheckRejects, hm, hr, h1, h2] at hf
          · simp [save_profile, sessionCheckRejects, hm, hr, h1, h2]
        · simp only [h2, Option.getD_some] at hr
          cases v1 with
          | str streamS =>
            cases v2 with
            | str sessionS =>
              right
              refine ⟨streamS, sessionS, rfl, rfl, ?_, ?_⟩
              · simp [save_profile, derivedFilename, hm, hr, h1, h2]
              · have e2 : (save_profile st d ts).2 = fun f =>
                    if f = derivedFilename d then
                      some (match st (derivedFilename d) with
                            | none => [headerRow, mkRow ts d]
                            | some rows => rows ++ [mkRow ts d])
                    else st f := by
                  simp [save_profile, derivedFilename, hm, hr, h1, h2]
                rw [e2]
                funext g
                by_cases hg : g = derivedFilename d
                · simp only [hg, if_pos]
                  cases st (derivedFilename d) <;> rfl
                · simp only [if_neg hg]
            | num n =>
              left
              constructor
              · rintro ⟨f, hf⟩
                simp [save_profile, hm, hr, h1, h2] at hf
              · simp [save_profile, hm, hr, h1, h2]
            | bool b =>
              left
              constructor
              · rintro ⟨f, hf⟩
                simp [save_profile, hm, hr, h1, h2] at hf
              · simp [save_profile, hm, hr, h1, h2]
            | null =>
              left
              constructor
              · rintro ⟨f, hf⟩
                simp [save_profile, hm, hr, h1, h2] at hf
              · simp [save_profile, hm, hr, h1, h2]
          | num n =>
            left
            constructor
            · rintro ⟨f, hf⟩
              simp [save_profile, hm, hr, h1, h2] at hf
            · simp [save_profile, hm, hr, h1, h2]
          | bool b =>
            left
            constructor
            · rintro ⟨f, hf⟩
              simp [save_profile, hm, hr, h1, h2] at hf
            · simp [save_profile, hm, hr, h1, h2]
          | null =>
            left
            constructor
            · rintro ⟨f, hf⟩
              simp [save_profile, hm, hr, h1, h2] at hf
            · simp [save_profile, hm, hr, h1, h2]

/-! ## Theorems: request validation (claims C3, C9, C4) -/

/-- C3: a request with a required field absent or holding the empty string is
rejected with the missing-fields validation error — the message lists the
missing fields — and the store is unchanged. -/
theorem C3_missing_field_rejected (st : Store) (d : Payload) (ts : DateTime)
    (k : String) (hk : k ∈ requiredFields)
    (hmiss : d.get k = none ∨ d.get k = some (.str "")) :
    k ∈ missingFields d ∧
    (save_profile st d ts).1 =
      .validationError ("Missing fields: " ++ String.intercalate ", " (missingFields d)) ∧
    (save_profile st d ts).2 = st := by
  have hkm : k ∈ missingFields d := by
    refine List.mem_filter.mpr ⟨hk, ?_⟩
    rcases hmiss with h | h <;> simp [truthyOpt, h, JsonVal.truthy, String.isEmpty]
  have hne : (missingFields d).isEmpty = false := by
    cases e : missingFields d with
    | nil => rw [e] at hkm; exact absurd hkm (List.not_mem_nil k)
    | cons a l => rfl
  refine ⟨hkm, ?_, ?_⟩ <;> simp [save_profile, hne]

/-- C3 witness: submitting with `email` absent is rejected listing `email`,
leaving the empty store untouched. -/
theorem C3_missing_field_rejected_witness :
    "email" ∈ missingFields missingEmailData ∧
    (save_profile emptyStore missingEmailData sampleTime).1 =
      .validationError
        ("Missing fields: " ++ String.intercalate ", " (missingFields missingEmailData)) ∧
    (save_profile emptyStore missingEmailData sampleTime).2 = emptyStore :=
  C3_missing_field_rejected emptyStore missingEmailData sampleTime "email"
    (by decide) (Or.inl (by decide))

/-- C9: a required field holding a falsy non-text value (`0`, `false`, or
`null`) is treated as missing — same validation error, no store change:
presence is judged by truthiness. -/
theorem C9_falsy_field_rejected (st : Store) (d : Payload) (ts : DateTime)
    (k : String) (v : JsonVal) (hk : k ∈ requiredFields)
    (hv : d.get k = some v)
    (hfalsy : v = .num 0 ∨ v = .bool false ∨ v = .null) :
    k ∈ missingFields d ∧
    (save_profile st d ts).1 =
      .validationError ("Missing fields: " ++ String.intercalate ", " (missingFields d)) ∧
    (save_profile st d ts).2 = st := by
  have hkm : k ∈ missingFields d := by
    refine List.mem_filter.mpr ⟨hk, ?_⟩
    rcases hfalsy with h | h | h <;> simp [truthyOpt, hv, h, JsonVal.truthy]
  have hne : (missingFields d).isEmpty = false := by
    cases e : missingFields d with
    | nil => rw [e] at hkm; exact absurd hkm (List.not_mem_nil k)
    | cons a l => rfl
  refine ⟨hkm, ?_, ?_⟩ <;> simp [save_profile, hne]

/-- C9 witness: `email` holding the number `0` is rejected as missing. -/
theorem C9_falsy_field_rejected_witness :
    "email" ∈ missingFields falsyEmailData ∧
    (save_profile emptyStore falsyEmailData sampleTime).1 =
      .validationError
        ("Missing fields: " ++ String.intercalate ", " (missingFields falsyEmailData)) ∧
    (save_profile emptyStore falsyEmailData sampleTime).2 = emptyStore :=
  C9_falsy_field_rejected emptyStore falsyEmailData sampleTime "email" (.num 0)
    (by decide) (by decide) (Or.inl rfl)

/-- C4: the session range check.  When the session text splits into exactly
two integer-parsing parts whose second is not greater than the first, the
request is rejected with the session error and no file is written; when it
does not parse as two integers, the check is skipped and the submission
proceeds to filename derivation and persistence. -/
theorem C4_session_range_check :
    (∀ (st : Store) (d : Payload) (ts : DateTime) (s : String) (s0 s1 : Int),
      missingFields d = [] →
      d.get "session" = some (.str s) →
      sessionTwoIntParse s = some (s0, s1) →
      s1 ≤ s0 →
      (save_profile st d ts).1 =
        .validationError "Session end year must be after start year." ∧
      (save_profile st d ts).2 = st) ∧
    (∀ (st : Store) (d : Payload) (ts : DateTime) (s streamS : String),
      missingFields d = [] →
      d.get "session" = some (.str s) →
      d.get "stream" = some (.str streamS) →
      sessionTwoIntParse s = none →
      (save_profile st d ts).1 =
        .success (make_filename streamS ((d.get "year").getD .null).pyStr s) ∧
      ∃ rows, (save_profile st d ts).2
          (make_filename streamS ((d.get "year").getD .null).pyStr s) = some rows ∧
        rows.getLast? = some (mkRow ts d)) := by
  constructor
  · intro st d ts s s0 s1 hm hs hparse hle
    have hrej : sessionCheckRejects (JsonVal.str s) = true := by
      simp [sessionCheckRejects, hparse, hle]
    constructor <;> simp [save_profile, hm, hs, hrej]
  · intro st d ts s streamS hm hs hstr hparse
    have hrej : sessionCheckRejects (JsonVal.str s) = false := by
      simp [sessionCheckRejects, hparse]
    constructor
    · simp [save_profile, hm, hrej, hstr, hs]
    · have e2 : (save_profile st d ts).2 =
          (fun g => if g = make_filename streamS ((d.get "year").getD .null).pyStr s then
            some (match st (make_filename streamS ((d.get "year").getD .null).pyStr s) with
                  | none => [headerRow, mkRow ts d]
                  | some rows => rows ++ [mkRow ts d])
            else st g) := by
        simp [save_profile, hm, hrej, hstr, hs]
      rw [e2]
      cases hst : st (make_filename streamS ((d.get "year").getD .null).pyStr s) with
      | none => exact ⟨[headerRow, mkRow ts d], by simp [hst], by simp⟩
      | some rows0 =>
        exact ⟨rows0 ++ [mkRow ts d], by simp [hst], by simp⟩

/-- C4 witness: session `"2025-2023"` is rejected; session `"abc-def"` is
accepted and persisted. -/
theorem C4_session_range_check_witness :
    ((save_profile emptyStore badSessionData sampleTime).1 =
        .validationError "Session end year must be after start year." ∧
      (save_profile emptyStore badSessionData sampleTime).2 = emptyStore) ∧
    ((save_profile emptyStore oddSessionData sampleTime).1 =
        .success (make_filename "B.Tech CS"
          ((oddSessionData.get "year").getD .null).pyStr "abc-def") ∧
      ∃ rows, (save_profile emptyStore oddSessionData sampleTime).2
          (make_filename "B.Tech CS"
            ((oddSessionData.get "year").getD .null).pyStr "abc-def") = some rows ∧
        rows.getLast? = some (mkRow sampleTime oddSessionData)) :=
  ⟨C4_session_range_check.1 emptyStore badSessionData sampleTime "2025-2023" 2025 2023
      (by decide) (by decide) (by decide) (by decide),
    C4_session_range_check.2 emptyStore oddSessionData sampleTime "abc-def" "B.Tech CS"
      (by decide) (by decide) (by decide) (by decide)⟩

/-! ## Digit and timestamp lemmas -/

theorem isDigit_ofNat (m : Nat) (h : m < 10) : (Char.ofNat (48 + m)).isDigit = true := by
  interval_cases m <;> decide

theorem natDigits_all_digit (n : Nat) : (natDigits n).all Char.isDigit = true := by
  induction n using Nat.strong_induction_on with
  | _ n ih =>
    rw [natDigits]
    by_cases h : n < 10
    · simp [h, isDigit_ofNat n h]
    · have h1 : n / 10 < n := Nat.div_lt_self (by omega) (by omega)
      simp [h, List.all_append, ih _ h1,
        isDigit_ofNat (n % 10) (Nat.mod_lt _ (by omega))]

theorem natDigits_length_le (n : Nat) : ∀ w, 1 ≤ w → n < 10 ^ w →
    (natDigits n).length ≤ w := by
  induction n using Nat.strong_induction_on with
  | _ n ih =>
    intro w hw h
    rw [natDigits]
    by_cases h10 : n < 10
    · rw [dif_pos h10]
      simpa using hw
    · have hw2 : 2 ≤ w := by
        by_contra hc
        have : w = 1 := by omega
        subst this
        simp at h
        omega
      have hpow : 10 ^ w = 10 ^ (w - 1) * 10 := by
        conv_lhs => rw [show w = (w - 1) + 1 by omega]
        rw [pow_succ]
      have hdiv : n / 10 < 10 ^ (w - 1) := by
        rw [Nat.div_lt_iff_lt_mul (by norm_num)]
        omega
      have hrec := ih (n / 10) (Nat.div_lt_self (by omega) (by omega)) (w - 1)
        (by omega) hdiv
      rw [dif_neg h10]
      simp only [List.length_append, List.length_cons, List.length_nil]
      omega

theorem padNum_length (w n : Nat) (hw : 1 ≤ w) (h : n < 10 ^ w) :
    (padNum w n).length = w := by
  have := natDigits_length_le n w hw h
  simp only [padNum, List.length_append, List.length_replicate]
  omega

theorem padNum_all_digit (w n : Nat) : (padNum w n).all Char.isDigit = true := by
  simp only [padNum, List.all_append, Bool.and_eq_true]
  refine ⟨?_, natDigits_all_digit n⟩
  simp only [List.all_eq_true]
  intro c hc
  rw [(List.mem_replicate.mp hc).2]
  decide

theorem digitsN_consume (ds rest : List Char) (hdig : ds.all Char.isDigit = true) :
    digitsN ds.length (ds ++ rest) = some rest := by
  induction ds with
  | nil => rfl
  | cons c cs ih =>
    simp only [List.all_cons, Bool.and_eq_true] at hdig
    simp [digitsN, hdig.1, ih hdig.2]

theorem padNum_consume (w n : Nat) (rest : List Char) (hw : 1 ≤ w) (h : n < 10 ^ w) :
    digitsN w (padNum w n ++ rest) = some rest := by
  have hl := padNum_length w n hw h
  have hc := digitsN_consume (padNum w n) rest (padNum_all_digit w n)
  rwa [hl] at hc

theorem expectChar_cons (c : Char) (rest : List Char) :
    expectChar c (c :: rest) = some rest := by
  simp [expectChar]

theorem isoShape_isoformat (t : DateTime) (hy : t.year < 10 ^ 4)
    (hmo : t.month < 10 ^ 2) (hd : t.day < 10 ^ 2) (hh : t.hour < 10 ^ 2)
    (hmi : t.minute < 10 ^ 2) (hs : t.second < 10 ^ 2) :
    isoShape (isoChars t) =
      some (if t.microsecond = 0 then [] else '.' :: padNum 6 t.microsecond) := by
  unfold isoShape isoChars
  rw [padNum_consume 4 t.year _ (by norm_num) hy, Option.some_bind, expectChar_cons,
    Option.some_bind, padNum_consume 2 t.month _ (by norm_num) hmo, Option.some_bind,
    expectChar_cons, Option.some_bind, padNum_consume 2 t.day _ (by norm_num) hd,
    Option.some_bind, expectChar_cons, Option.some_bind,
    padNum_consume 2 t.hour _ (by norm_num) hh, Option.some_bind, expectChar_cons,
    Option.some_bind, padNum_consume 2 t.minute _ (by norm_num) hmi, Option.some_bind,
    expectChar_cons, Option.some_bind, padNum_consume 2 t.second _ (by norm_num) hs]

/-- The exact `isoformat` output shape always passes the ISO checker, given
the field bounds `datetime` guarantees. -/
theorem isoformat_parseable (t : DateTime) (hy : t.year < 10000)
    (hmo : t.month < 100) (hd : t.day < 100) (hh : t.hour < 100)
    (hmi : t.minute < 100) (hs : t.second < 100) (hus : t.microsecond < 1000000) :
    isIsoTimestamp (isoformat t) = true := by
  show (match isoShape (isoChars t) with
        | none => false
        | some rest => isoAfterSeconds rest) = true
  rw [isoShape_isoformat t (by norm_num; omega) (by norm_num; omega)
    (by norm_num; omega) (by norm_num; omega) (by norm_num; omega) (by norm_num; omega)]
  by_cases hm0 : t.microsecond = 0
  · simp [hm0, isoAfterSeconds]
  · simp only [hm0, if_false, ite_false]
    show isoAfterSeconds ('.' :: padNum 6 t.microsecond) = true
    simp [isoAfterSeconds, padNum_length 6 t.microsecond (by norm_num) (by norm_num; omega),
      padNum_all_digit]

/-! ## CSV round-trip lemmas -/

theorem parseUnquoted_spec (cell rest : List Char)
    (hcell : ∀ c ∈ cell, c ≠ ',')
    (hrest : rest = [] ∨ ∃ r2, rest = ',' :: r2) :
    parseUnquoted (cell ++ rest) = (cell, rest) := by
  induction cell with
  | nil =>
    rcases hrest with h | ⟨r2, h⟩ <;> subst h <;> simp [parseUnquoted]
  | cons c cs ih =>
    have hc : c ≠ ',' := hcell c (List.mem_cons_self c cs)
    simp [parseUnquoted, hc, ih (fun x hx => hcell x (List.mem_cons_of_mem c hx))]

theorem parseQuoted_cons_ne (c : Char) (cs : List Char) (hq : ¬ c = '"') :
    parseQuoted (c :: cs) =
      match parseQuoted cs with
      | some (cell, rest) => some (c :: cell, rest)
      | none => none := by
  rw [parseQuoted.eq_def]
  simp only [hq, if_false, ite_false]

theorem parseQuoted_escape (cell rest : List Char)
    (hrest : rest = [] ∨ ∃ r2, rest = ',' :: r2) :
    parseQuoted (escapeQuotes cell ++ '"' :: rest) = some (cell, rest) := by
  induction cell with
  | nil =>
    rcases hrest with h | ⟨r2, h⟩ <;> subst h <;> simp [escapeQuotes, parseQuoted]
  | cons c cs ih =>
    by_cases hq : c = '"'
    · subst hq
      simp [escapeQuotes, parseQuoted, ih]
    · have he : escapeQuotes (c :: cs) = c :: escapeQuotes cs := by
        simp [escapeQuotes, hq]
      rw [he, List.cons_append, parseQuoted_cons_ne c _ hq, ih]

theorem parseCell_encode (cell rest : List Char)
    (hrest : rest = [] ∨ ∃ r2, rest = ',' :: r2) :
    parseCell (encodeCell cell ++ rest) = some (cell, rest) := by
  by_cases hq : cell.any csvSpecial
  · have hshape : encodeCell cell ++ rest = '"' :: (escapeQuotes cell ++ '"' :: rest) := by
      simp [encodeCell, hq, List.append_assoc]
    rw [hshape]
    simp [parseCell, parseQuoted_escape cell rest hrest]
  · have hplain : encodeCell cell = cell := by simp [encodeCell, hq]
    rw [hplain]
    have hnc : ∀ c ∈ cell, c ≠ ',' := by
      intro c hc hcomma
      exact hq (List.any_eq_true.mpr ⟨c, hc, by simp [csvSpecial, hcomma]⟩)
    have hnq : ∀ c ∈ cell, c ≠ '"' := by
      intro c hc hquote
      exact hq (List.any_eq_true.mpr ⟨c, hc, by simp [csvSpecial, hquote]⟩)
    cases cell with
    | nil =>
      rcases hrest with h | ⟨r2, h⟩ <;> subst h <;> simp [parseCell, parseUnquoted]
    | cons c cs =>
      have hcq : c ≠ '"' := hnq c (List.mem_cons_self c cs)
      have := parseUnquoted_spec (c :: cs) rest hnc hrest
      simp only [List.cons_append] at this ⊢
      simp [parseCell, hcq, this]

theorem parseRowAux_encode (cells : List (List Char)) :
    ∀ fuel, cells ≠ [] → cells.length ≤ fuel →
    parseRowAux fuel (encodeRowChars cells) = some cells := by
  induction cells with
  | nil => intro fuel hne; exact absurd rfl hne
  | cons c cs ih =>
    intro fuel hne hfuel
    cases cs with
    | nil =>
      cases fuel with
      | zero => simp at hfuel
      | succ f =>
        have h1 : parseCell (encodeCell c) = some (c, []) := by
          have := parseCell_encode c [] (Or.inl rfl)
          simpa using this
        simp [parseRowAux, encodeRowChars, h1]
    | cons c2 cs2 =>
      cases fuel with
      | zero => simp at hfuel
      | succ f =>
        have h1 : parseCell (encodeCell c ++ ',' :: encodeRowChars (c2 :: cs2)) =
            some (c, ',' :: encodeRowChars (c2 :: cs2)) :=
          parseCell_encode c _ (Or.inr ⟨_, rfl⟩)
        have h2 := ih f (by simp) (by simpa using hfuel)
        simp [encodeRowChars, parseRowAux, h1, h2]

theorem encodeRowChars_length (cells : List (List Char)) (hne : cells ≠ []) :
    cells.length ≤ (encodeRowChars cells).length + 1 := by
  induction cells with
  | nil => exact absurd rfl hne
  | cons c cs ih =>
    cases cs with
    | nil => simp [encodeRowChars]
    | cons c2 cs2 =>
      have := ih (by simp)
      simp only [encodeRowChars, List.length_append, List.length_cons] at this ⊢
      omega

/-- Reading back an encoded CSV record returns exactly the written cells. -/
theorem parseRow_encodeRow (r : List String) (hne : r ≠ []) :
    parseRow (encodeRow r) = some r := by
  unfold parseRow encodeRow
  have hne2 : r.map String.data ≠ [] := by simpa using hne
  have hlen := encodeRowChars_length (r.map String.data) hne2
  have hfuel : (r.map String.data).length ≤
      (String.mk (encodeRowChars (r.map String.data))).data.length + 1 := by
    simpa using hlen
  rw [show (String.mk (encodeRowChars (r.map String.data))).data =
    encodeRowChars (r.map String.data) from rfl]
  rw [parseRowAux_encode (r.map String.data) _ hne2 (by simpa using hlen)]
  have hid : String.mk ∘ String.data = id := funext fun s => rfl
  simp [List.map_map, hid]

/-! ## Theorems: the record store (claim C2) -/

theorem dash_mem_isoChars (t : DateTime) : '-' ∈ isoChars t := by
  unfold isoChars
  exact List.mem_append.mpr (Or.inr (List.mem_cons_self _ _))

theorem isoformat_ne_timestamp (t : DateTime) : isoformat t ≠ "timestamp" := by
  intro h
  have hd : isoChars t = "timestamp".data := congrArg String.data h
  have hm := dash_mem_isoChars t
  rw [hd] at hm
  exact absurd hm (by decide)

/-- A data row can never collide with the header row: its leading timestamp
cell always contains a hyphen, `"timestamp"` does not. -/
theorem mkRow_ne_headerRow (ts : DateTime) (d : Payload) : mkRow ts d ≠ headerRow := by
  intro h
  have hh := congrArg List.head? h
  simp only [mkRow, headerRow, List.head?_cons, Option.some.injEq] at hh
  exact isoformat_ne_timestamp ts hh

/-- C2: header-once, append-only.  A successful submission to a nonexistent
file writes exactly header then data row; to an existing file it appends
exactly one data row; existing rows of any file are always preserved; and in
every reachable store each file consists of the header row followed by
non-header data rows — exactly one header line, as the file's first line. -/
theorem C2_header_once_append_only :
    (∀ (st : Store) (d : Payload) (ts : DateTime) (f : String),
      (save_profile st d ts).1 = .success f →
      ((st f = none → (save_profile st d ts).2 f = some [headerRow, mkRow ts d]) ∧
       (∀ rows, st f = some rows →
         (save_profile st d ts).2 f = some (rows ++ [mkRow ts d])) ∧
       (∀ g rows, st g = some rows →
         ∃ suffix, (save_profile st d ts).2 g = some (rows ++ suffix)))) ∧
    (∀ st, Reachable st → ∀ f rows, st f = some rows →
      ∃ rs, rows = headerRow :: rs ∧ headerRow ∉ rs) := by
  constructor
  · intro st d ts f hsucc
    rcases save_profile_shape st d ts with ⟨hno, _⟩ | ⟨strm, sess, h1, h2, hresp, hstore⟩
    · exact absurd ⟨f, hsucc⟩ hno
    · have hf : f = derivedFilename d := by
        have := hsucc.symm.trans hresp
        simpa using this
      subst hf
      refine ⟨?_, ?_, ?_⟩
      · intro hnone
        rw [hstore]
        simp [hnone]
      · intro rows hrows
        rw [hstore]
        simp [hrows]
      · intro g rows hrows
        rw [hstore]
        by_cases hg : g = derivedFilename d
        · subst hg
          rw [hrows]
          exact ⟨[mkRow ts d], by simp⟩
        · exact ⟨[], by simp [hg, hrows]⟩
  · intro st hreach
    induction hreach with
    | init =>
      intro f rows h
      exact absurd h (by simp [emptyStore])
    | step st0 d ts hr0 ih =>
      intro f rows h
      rcases save_profile_shape st0 d ts with ⟨_, hst⟩ | ⟨strm, sess, h1, h2, hresp, hstore⟩
      · rw [hst] at h
        exact ih f rows h
      · rw [hstore] at h
        simp only [] at h
        by_cases hg : f = derivedFilename d
        · rw [if_pos hg] at h
          cases hst0 : st0 (derivedFilename d) with
          | none =>
            rw [hst0] at h
            simp only [Option.some.injEq] at h
            refine ⟨[mkRow ts d], by rw [← h]; rfl, ?_⟩
            simp [mkRow_ne_headerRow ts d]
            exact fun hc => absurd hc.symm (mkRow_ne_headerRow ts d)
          | some rows0 =>
            rw [hst0] at h
            obtain ⟨rs0, hrs0, hnotin⟩ := ih (derivedFilename d) rows0 hst0
            simp only [Option.some.injEq] at h
            refine ⟨rs0 ++ [mkRow ts d], ?_, ?_⟩
            · rw [← h, hrs0]
              rfl
            · simp only [List.mem_append, List.mem_singleton]
              rintro (hc | hc)
              · exact hnotin hc
              · exact absurd hc.symm (mkRow_ne_headerRow ts d)
        · rw [if_neg hg] at h
          exact ih f rows h

/-- C2 witness: from the empty store, a first submission creates the sample
file as header plus one data row, and that reachable file shape has exactly
one leading header. -/
theorem C2_header_once_append_only_witness :
    (save_profile emptyStore sampleData sampleTime).2 sampleFile =
      some [headerRow, mkRow sampleTime sampleData] ∧
    ∃ rs, [headerRow, mkRow sampleTime sampleData] = headerRow :: rs ∧
      headerRow ∉ rs := by
  constructor
  · exact (C2_header_once_append_only.1 emptyStore sampleData sampleTime sampleFile
      (by decide)).1 rfl
  · exact C2_header_once_append_only.2 _
      (Reachable.step emptyStore sampleData sampleTime Reachable.init) sampleFile
      [headerRow, mkRow sampleTime sampleData] (by rfl)

/-! ## Theorems: row round-trip (claim C8) -/

/-- C8: a valid submission's appended row is the generated timestamp followed
by the nine field values in fixed column order; it is appended as the file's
last row; encoding it as a CSV record and reading it back returns it
unchanged; and the timestamp cell parses as an ISO-8601 UTC timestamp. -/
theorem C8_row_round_trip (st : Store) (d : Payload) (ts : DateTime)
    (nameV emailV rollV birthdateV registrationV streamV sessionV yearV courseV : String)
    (h1 : d.get "name" = some (.str nameV)) (hn1 : nameV ≠ "")
    (h2 : d.get "email" = some (.str emailV)) (hn2 : emailV ≠ "")
    (h3 : d.get "roll" = some (.str rollV)) (hn3 : rollV ≠ "")
    (h4 : d.get "birthdate" = some (.str birthdateV)) (hn4 : birthdateV ≠ "")
    (h5 : d.get "registration" = some (.str registrationV)) (hn5 : registrationV ≠ "")
    (h6 : d.get "stream" = some (.str streamV)) (hn6 : streamV ≠ "")
    (h7 : d.get "session" = some (.str sessionV)) (hn7 : sessionV ≠ "")
    (h8 : d.get "year" = some (.str yearV)) (hn8 : yearV ≠ "")
    (h9 : d.get "course" = some (.str courseV)) (hn9 : courseV ≠ "")
    (hsess : sessionCheckRejects (.str sessionV) = false)
    (hy : ts.year < 10000) (hmo : ts.month < 100) (hd : ts.day < 100)
    (hh : ts.hour < 100) (hmi : ts.minute < 100) (hs : ts.second < 100)
    (hus : ts.microsecond < 1000000) :
    mkRow ts d = isoformat ts :: [nameV, emailV, rollV, birthdateV, registrationV,
      streamV, sessionV, yearV, courseV] ∧
    (save_profile st d ts).1 = .success (make_filename streamV yearV sessionV) ∧
    (∃ rows, (save_profile st d ts).2 (make_filename streamV yearV sessionV) = some rows ∧
      rows.getLast? = some (mkRow ts d)) ∧
    parseRow (encodeRow (mkRow ts d)) = some (mkRow ts d) ∧
    isIsoTimestamp (isoformat ts) = true := by
  have hem : ∀ v : String, v ≠ "" → (JsonVal.str v).truthy = true := by
    intro v hv
    have he : v.isEmpty = false := by
      simp only [Bool.eq_false_iff, ne_eq, String.isEmpty_iff]
      exact hv
    simp [JsonVal.truthy, he]
  have hm : missingFields d = [] := by
    simp [missingFields, requiredFields, truthyOpt, h1, h2, h3, h4, h5, h6, h7, h8, h9,
      hem nameV hn1, hem emailV hn2, hem rollV hn3, hem birthdateV hn4,
      hem registrationV hn5, hem streamV hn6, hem sessionV hn7, hem yearV hn8,
      hem courseV hn9]
  have hrej : sessionCheckRejects ((d.get "session").getD .null) = false := by
    rw [h7]
    exact hsess
  have hy8 : ((d.get "year").getD .null).pyStr = yearV := by
    simp [h8, JsonVal.pyStr]
  have hrow : mkRow ts d = isoformat ts :: [nameV, emailV, rollV, birthdateV,
      registrationV, streamV, sessionV, yearV, courseV] := by
    simp [mkRow, requiredFields, h1, h2, h3, h4, h5, h6, h7, h8, h9,
      JsonVal.csvStr, JsonVal.pyStr]
  have he1 : (save_profile st d ts).1 = .success (make_filename streamV yearV sessionV) := by
    simp [save_profile, hm, hrej, hsess, h6, h7, hy8]
  have he2 : (save_profile st d ts).2 =
      (fun g => if g = make_filename streamV yearV sessionV then
        some (match st (make_filename streamV yearV sessionV) with
              | none => [headerRow, mkRow ts d]
              | some rows => rows ++ [mkRow ts d])
        else st g) := by
    simp [save_profile, hm, hrej, hsess, h6, h7, hy8]
  refine ⟨hrow, he1, ?_, ?_, isoformat_parseable ts hy hmo hd hh hmi hs hus⟩
  · rw [he2]
    cases hst : st (make_filename streamV yearV sessionV) with
    | none => exact ⟨[headerRow, mkRow ts d], by simp [hst], by simp⟩
    | some rows0 => exact ⟨rows0 ++ [mkRow ts d], by simp [hst], by simp⟩
  · exact parseRow_encodeRow _ (by simp [mkRow])

/-- C8 witness: the sample request's row round-trips through the CSV codec
with its parseable leading timestamp. -/
theorem C8_row_round_trip_witness :
    mkRow sampleTime sampleData = isoformat sampleTime :: ["Alice",
      "alice@example.com", "17", "2001-01-02", "R1", "B.Tech CS", "2023-2026",
      "2", "CS"] ∧
    (save_profile emptyStore sampleData sampleTime).1 =
      .success (make_filename "B.Tech CS" "2" "2023-2026") ∧
    (∃ rows, (save_profile emptyStore sampleData sampleTime).2
        (make_filename "B.Tech CS" "2" "2023-2026") = some rows ∧
      rows.getLast? = some (mkRow sampleTime sampleData)) ∧
    parseRow (encodeRow (mkRow sampleTime sampleData)) =
      some (mkRow sampleTime sampleData) ∧
    isIsoTimestamp (isoformat sampleTime) = true :=
  C8_row_round_trip emptyStore sampleData sampleTime "Alice" "alice@example.com"
    "17" "2001-01-02" "R1" "B.Tech CS" "2023-2026" "2" "CS"
    (by decide) (by decide) (by decide) (by decide) (by decide) (by decide)
    (by decide) (by decide) (by decide) (by decide) (by decide) (by decide)
    (by decide) (by decide) (by decide) (by decide) (by decide) (by decide)
    (by decide) (by decide) (by decide) (by decide) (by decide) (by decide)
    (by decide) (by decide)

end Attendance
